import Mathlib

/-
  Verification of the multi-camera session/streaming coordinator
  (PLTUOnFire/web). Each component of the client is shallowly embedded:
  React hook state becomes an explicit state record, callbacks become
  step functions on that state, and network/hardware outcomes are passed
  in as explicit oracle values. All definitions are executable.
-/

/- ===================== Calibration (useCalibration) ===================== -/

namespace Calibration

/-- Client-side calibration state, the useState fields of useCalibration. -/
structure CalState where
  isCalibrating : Bool
  currentStep : Nat
  totalSteps : Nat
  currentPoint : Option Nat
  calibrationComplete : Bool
  calibrationAccuracy : ℚ
deriving Repr, DecidableEq

/-- The initial hook state: nothing started, no point loaded. -/
def initState : CalState :=
  { isCalibrating := false, currentStep := 0, totalSteps := 0,
    currentPoint := none, calibrationComplete := false, calibrationAccuracy := 0 }

/-- Outcome of the backend /calibration/finish call: whether the response was
ok without a result.error, and the reported accuracy field if present. -/
structure FinishResult where
  ok : Bool
  accuracy : Option ℚ
deriving Repr, DecidableEq

/-- loadCalibrationPoint: on success stores the fetched point and sets the
step index; on failure the state is left unchanged. -/
def loadCalibrationPoint (s : CalState) (step : Nat) (ok : Bool) : CalState :=
  if ok then { s with currentPoint := some step, currentStep := step } else s

/-- startCalibration: on backend success records total_steps, resets the step
index to 0, clears the complete flag and loads point 0. -/
def startCalibration (s : CalState) (ok : Bool) (totalSteps : Nat) (pointOk : Bool) :
    CalState :=
  if ok then
    loadCalibrationPoint
      { s with isCalibrating := true, totalSteps := totalSteps,
               currentStep := 0, calibrationComplete := false }
      0 pointOk
  else s

/-- finishCalibration: on backend success clears isCalibrating, sets the
complete flag and stores result.accuracy (defaulting to 0); on failure the
state is unchanged and false is returned. -/
def finishCalibration (s : CalState) (r : FinishResult) : CalState × Bool :=
  if r.ok then
    ({ s with isCalibrating := false, calibrationComplete := true,
              calibrationAccuracy := r.accuracy.getD 0 }, true)
  else (s, false)

/-- nextCalibrationPoint: computes nextStep = currentStep + 1; if
nextStep >= totalSteps it invokes finishCalibration, otherwise it loads the
point for nextStep. The Bool records whether finalize was invoked. -/
def nextCalibrationPoint (s : CalState) (finish : FinishResult) (loadOk : Bool) :
    CalState × Bool :=
  let nextStep := s.currentStep + 1
  if s.totalSteps ≤ nextStep then
    ((finishCalibration s finish).1, true)
  else
    (loadCalibrationPoint s nextStep loadOk, false)

/-- Run n successive advances (each with a successful point load), counting
how many of them invoked finalize. -/
def runAdvances (s : CalState) (finish : FinishResult) : Nat → CalState × Nat
  | 0 => (s, 0)
  | n + 1 =>
    let r1 := nextCalibrationPoint s finish true
    let r2 := runAdvances r1.1 finish n
    (r2.1, (if r1.2 then 1 else 0) + r2.2)

/-- The in-run state after k successful loads of a calibration with N steps. -/
def midState (N k : Nat) : CalState :=
  { isCalibrating := true, currentStep := k, totalSteps := N,
    currentPoint := some k, calibrationComplete := false, calibrationAccuracy := 0 }

/-- getProgress: 0 when totalSteps is 0, otherwise
Math.round((currentStep / totalSteps) * 100). -/
def getProgress (currentStep totalSteps : Nat) : ℤ :=
  if totalSteps = 0 then 0
  else round ((currentStep : ℚ) / (totalSteps : ℚ) * 100)

end Calibration

/- ===================== Tracking session (useEyeTracking) ===================== -/

namespace Tracking

/-- config.camera.trackingFps. -/
def trackingFps : Nat := 10

/-- The setInterval period used by startTracking: 1000 / config.camera.trackingFps. -/
def tickPeriodMs : Nat := 1000 / trackingFps

/-- A message sent on the tracking channel. -/
inductive TrackMsg
  | trackingFrame (frame : String)
deriving Repr, DecidableEq

/-- startTracking: a no-op when already tracking, otherwise it connects and
begins the fixed-period interval; the result is the period of the timer it
starts, if any. -/
def startTracking (isTracking : Bool) : Option Nat :=
  if isTracking then none else some tickPeriodMs

/-- One interval tick: if the channel is connected and a video element is
available, sendTrackingFrame captures the current frame and sends exactly one
structured message; otherwise the tick sends nothing. -/
def trackingTick (connected : Bool) (video : Option String) : List TrackMsg :=
  match video with
  | none => []
  | some frame => if connected then [TrackMsg.trackingFrame frame] else []

end Tracking

/- ===================== Stop-all recording (App.handleToggleRecording) ===================== -/

namespace StopAll

/-- The fixed logical camera slots. -/
inductive CamId
  | cam1
  | cam2
  | cam3
deriving Repr, DecidableEq

/-- The order in which handleToggleRecording enumerates slots. -/
def camOrder : List CamId := [CamId.cam1, CamId.cam2, CamId.cam3]

/-- The stop loop of handleToggleRecording: stopRecording is invoked for
every camera in the list, in order, and succeeded is cleared whenever a stop
returns false. The first component collects the cameras on which
stopRecording was actually invoked. -/
def stopLoop (stopResult : CamId → Bool) : List CamId → Bool → List CamId × Bool
  | [], succeeded => ([], succeeded)
  | c :: rest, succeeded =>
    let ok := stopResult c
    let r := stopLoop stopResult rest (if ok then succeeded else false)
    (c :: r.1, r.2)

/-- The stop branch of handleToggleRecording: filter the slots to the active
cameras, then run the stop loop over them starting from succeeded = true. -/
def handleToggleRecordingStop (active : CamId → Bool) (stopResult : CamId → Bool) :
    List CamId × Bool :=
  stopLoop stopResult (camOrder.filter (fun c => active c)) true

end StopAll

/- ===================== Frame uploader throttle (useRecorder.sendFrame) ===================== -/

namespace Recorder

/-- The uploader state that sendFrame reads and writes. -/
structure RecState where
  isRecording : Bool
  recordingSession : Option String
  lastUploadTime : Nat
deriving Repr, DecidableEq

/-- Per-call environment of one sendFrame invocation: the call time
(Date.now()), whether a video element was passed, whether the video element
is ready (readyState, paused, dimensions), whether the captured frame passes
the black-frame validity check, and whether the delivery attempt
(WebSocket or HTTP fallback) succeeds. -/
structure FrameEnv where
  now : Nat
  videoPresent : Bool
  videoReady : Bool
  frameValid : Bool
  uploadOk : Bool
deriving Repr, DecidableEq

/-- sendFrame: guards, then the 250 ms throttle (a call less than 250 ms
after the last successful upload returns immediately), then readiness and
validity checks, then the delivery attempt; lastUploadTime is set to the call
time only when delivery succeeded. The Bool is true when the frame was
forwarded to the delivery path. -/
def sendFrame (s : RecState) (e : FrameEnv) : Bool × RecState :=
  if !(s.isRecording && s.recordingSession.isSome && e.videoPresent) then (false, s)
  else if e.now - s.lastUploadTime < 250 then (false, s)
  else if !e.videoReady then (false, s)
  else if !e.frameValid then (false, s)
  else if e.uploadOk then (true, { s with lastUploadTime := e.now })
  else (true, s)

/-- An all-good call environment at a given time. -/
def goodEnv (now : Nat) : FrameEnv :=
  { now := now, videoPresent := true, videoReady := true,
    frameValid := true, uploadOk := true }

end Recorder

/- ===================== Reconnecting channel (useWebSocket) ===================== -/

namespace ReconnectChannel

/-- The channel state: the connected flag, the reconnect attempt counter, the
pending reconnect timer (with its delay) if one is scheduled, and a
generation counter standing for the WebSocket object currently held. -/
structure WSState where
  wsConnected : Bool
  reconnectAttempts : Nat
  reconnectTimer : Option Nat
  socketGen : Nat
deriving Repr, DecidableEq

/-- The backoff delay computed in the onclose handler:
min(1000 * 2^attempts, 30000). -/
def backoffDelay (attempts : Nat) : Nat := min (1000 * 2 ^ attempts) 30000

/-- connectWebSocket: closes any existing socket and opens a fresh one with
handlers installed. Its synchronous body touches no other state: in
particular the attempt counter is left as it is. -/
def connectWebSocket (s : WSState) : WSState :=
  { s with socketGen := s.socketGen + 1 }

/-- The onopen handler: marks the channel connected and resets the reconnect
attempt counter to zero. -/
def onOpen (s : WSState) : WSState :=
  { s with wsConnected := true, reconnectAttempts := 0 }

/-- The onclose handler: clears the connected flag; if fewer than 5 attempts
have been used it schedules exactly one reconnect timer with the backoff
delay, otherwise it schedules nothing. -/
def onClose (s : WSState) : WSState :=
  if s.reconnectAttempts < 5 then
    { s with wsConnected := false,
             reconnectTimer := some (backoffDelay s.reconnectAttempts) }
  else
    { s with wsConnected := false }

/-- The body of the scheduled reconnect timer: increments the attempt counter
and calls connectWebSocket. -/
def reconnectTimerBody (s : WSState) : WSState :=
  connectWebSocket { s with reconnectAttempts := s.reconnectAttempts + 1,
                            reconnectTimer := none }

/-- A timer can only fire while one is pending; firing with no pending timer
changes nothing. -/
def fireTimer (s : WSState) : WSState :=
  match s.reconnectTimer with
  | none => s
  | some _ => reconnectTimerBody s

/-- disconnectWebSocket: clears any pending reconnect timer, closes the
socket and resets the attempt counter to zero. -/
def disconnectWebSocket (s : WSState) : WSState :=
  { s with reconnectTimer := none, reconnectAttempts := 0 }

/-- The events that can occur without any caller action: a socket close and a
scheduled timer firing. -/
inductive AutoEvent
  | close
  | timer
deriving Repr, DecidableEq

/-- One automatic step. -/
def autoStep (s : WSState) : AutoEvent → WSState
  | AutoEvent.close => onClose s
  | AutoEvent.timer => fireTimer s

/-- A run of automatic events. -/
def autoRun (s : WSState) : List AutoEvent → WSState
  | [] => s
  | e :: rest => autoRun (autoStep s e) rest

/-- The channel is exhausted: 5 attempts used up and no reconnect pending. -/
def exhausted (s : WSState) : Prop :=
  5 ≤ s.reconnectAttempts ∧ s.reconnectTimer = none

end ReconnectChannel

/- ===================== Uploader framing (recording channels) ===================== -/

namespace Pairing

/-- A message on a recording channel: a metadata text envelope (carrying the
camera id and, when the sender puts one in, a frame number), or a binary
payload. -/
inductive WsMsg
  | metaEnv (cameraId : String) (frameNumber : Option Nat)
  | binary (cameraId : String) (size : Nat)
deriving Repr, DecidableEq

/-- The ondataavailable handler installed by setupRecorderWebSocket: when the
chunk is nonempty and the socket is open it sends the frame_info envelope
(type and camera_id only) and then the binary chunk; otherwise nothing. -/
def ondataavailable (wsOpen : Bool) (cameraId : String) (size : Nat) : List WsMsg :=
  if 0 < size && wsOpen then
    [WsMsg.metaEnv cameraId none, WsMsg.binary cameraId size]
  else []

/-- The channel trace of a sequence of chunk events on one camera's recording
channel, each event giving the socket state and the chunk size. -/
def chunkTrace (cameraId : String) : List (Bool × Nat) → List WsMsg
  | [] => []
  | e :: rest => ondataavailable e.1 cameraId e.2 ++ chunkTrace cameraId rest

/-- One sendFrameViaWebSocket invocation on the single recording socket
shared by all cameras: its camera, whether the socket is connected when it
starts, and whether each of its two safeSend calls succeeds. -/
structure FrameCall where
  cameraId : String
  connected : Bool
  metaSendOk : Bool
  binSendOk : Bool
deriving Repr, DecidableEq

/-- The shared-socket execution state of the frame-upload path: the shared
frame counter (frameCountRef), the channel trace so far, the invocations
whose envelope went out and whose binary send is still suspended at the
await points, and the invocations that have started. -/
structure FrameExec where
  frameCount : Nat
  trace : List WsMsg
  pendingBin : List Nat
  started : List Nat
deriving Repr, DecidableEq

/-- The machine state at the start of a recording session: startRecording
resets the frame counter to 0 and nothing has been sent. -/
def initExec : FrameExec :=
  { frameCount := 0, trace := [], pendingBin := [], started := [] }

/-- The synchronous prefix of invocation i of sendFrameViaWebSocket: if the
socket is connected it increments the shared frame counter and sends the
frame_info envelope carrying the new number within the same synchronous
region; after a successful envelope send the invocation suspends at the
await setTimeout(10) and blob.arrayBuffer() points with its binary payload
still unsent. -/
def startStep (calls : Nat → FrameCall) (st : FrameExec) (i : Nat) : FrameExec :=
  if i ∈ st.started then st
  else
    let c := calls i
    let st1 := { st with started := i :: st.started }
    if !c.connected then st1
    else
      let n := st1.frameCount + 1
      if !c.metaSendOk then { st1 with frameCount := n }
      else
        { st1 with frameCount := n,
                   trace := st1.trace ++ [WsMsg.metaEnv c.cameraId (some n)],
                   pendingBin := st1.pendingBin ++ [i] }

/-- The continuation of invocation i after its await points: it sends the
binary payload on the same socket (or nothing if that safeSend fails). -/
def resumeStep (calls : Nat → FrameCall) (st : FrameExec) (i : Nat) : FrameExec :=
  if i ∈ st.pendingBin then
    let st1 := { st with pendingBin := st.pendingBin.erase i }
    if (calls i).binSendOk then
      { st1 with trace := st1.trace ++ [WsMsg.binary (calls i).cameraId 0] }
    else st1
  else st

/-- An event of the shared socket: an invocation's synchronous prefix runs,
or a suspended invocation's continuation resumes. -/
inductive SendEv
  | start (i : Nat)
  | resume (i : Nat)
deriving Repr, DecidableEq

/-- Run a schedule of events; the event-loop interleaving of the overlapping
invocations is the choice of schedule. -/
def runSched (calls : Nat → FrameCall) (st : FrameExec) : List SendEv → FrameExec
  | [] => st
  | SendEv.start i :: rest => runSched calls (startStep calls st i) rest
  | SendEv.resume i :: rest => runSched calls (resumeStep calls st i) rest

/-- The schedule with no overlap on the socket: each invocation's
continuation runs immediately after its synchronous prefix, for
invocations 0..n-1 in order. -/
def serializedSched : Nat → List SendEv
  | 0 => []
  | n + 1 => serializedSched n ++ [SendEv.start n, SendEv.resume n]

/-- Two overlapping invocations, as produced by one interval tick calling
sendFrame for two cameras: both synchronous prefixes run before either
continuation resumes. -/
def overlappingSched : List SendEv :=
  [SendEv.start 0, SendEv.start 1, SendEv.resume 0, SendEv.resume 1]

/-- The two per-camera calls of one tick, both finding the socket open and
all sends succeeding. -/
def twoTickCalls : Nat → FrameCall := fun i =>
  if i = 0 then
    { cameraId := "cam1", connected := true, metaSendOk := true, binSendOk := true }
  else
    { cameraId := "cam2", connected := true, metaSendOk := true, binSendOk := true }

/-- Every binary message in the trace is immediately preceded by exactly one
metadata envelope: the walk consumes an adjacent metadata/binary pair
together, so a binary with anything else right before it fails. -/
def binariesPaired : List WsMsg → Bool
  | [] => true
  | WsMsg.metaEnv _ _ :: WsMsg.binary _ _ :: rest => binariesPaired rest
  | WsMsg.metaEnv _ _ :: rest => binariesPaired rest
  | WsMsg.binary _ _ :: _ => false

/-- The frame-number fields of the metadata envelopes of a trace, in order. -/
def envelopeNumbers : List WsMsg → List (Option Nat)
  | [] => []
  | WsMsg.metaEnv _ n :: rest => n :: envelopeNumbers rest
  | WsMsg.binary _ _ :: rest => envelopeNumbers rest

/-- Every envelope carries a frame number. -/
def allCarryNumbers (l : List (Option Nat)) : Bool := l.all Option.isSome

/-- The frame numbers actually carried by the metadata envelopes of a trace,
in channel order. -/
def envelopeNats : List WsMsg → List Nat
  | [] => []
  | WsMsg.metaEnv _ (some n) :: rest => n :: envelopeNats rest
  | WsMsg.metaEnv _ none :: rest => envelopeNats rest
  | WsMsg.binary _ _ :: rest => envelopeNats rest

/-- The frame numbers carried by one camera's metadata envelopes, in order. -/
def envelopeNatsFor (cam : String) : List WsMsg → List Nat
  | [] => []
  | WsMsg.metaEnv c (some n) :: rest =>
    if c = cam then n :: envelopeNatsFor cam rest else envelopeNatsFor cam rest
  | WsMsg.metaEnv _ none :: rest => envelopeNatsFor cam rest
  | WsMsg.binary _ _ :: rest => envelopeNatsFor cam rest

/-- Session invariant of the shared-socket trace: every envelope carries a
frame number, the numbers are strictly increasing in channel order, and no
number exceeds the shared counter. -/
def numbersInv (st : FrameExec) : Prop :=
  allCarryNumbers (envelopeNumbers st.trace) = true ∧
  (envelopeNats st.trace).Pairwise (· < ·) ∧
  ∀ m ∈ envelopeNats st.trace, m ≤ st.frameCount

end Pairing

/- ===================== Acquisition retry (useCamera startCamera, retry build) ===================== -/

namespace AcquireRetry

/-- The timeout applied to the getUserMedia call, in milliseconds. -/
def gumTimeoutMs : Nat := 10000

/-- MAX_RETRIES in startCamera. -/
def maxRetries : Nat := 3

/-- RETRY_DELAY in startCamera, in milliseconds. -/
def retryDelayMs : Nat := 1000

/-- The message of the error rejected by the getUserMedia timeout race. -/
def timeoutMessage : String := "getUserMedia timeout after 10 seconds"

/-- Whether the pattern starts the given character list. -/
def startsWithChars : List Char → List Char → Bool
  | [], _ => true
  | _ :: _, [] => false
  | p :: ps, c :: cs => p == c && startsWithChars ps cs

/-- Whether the pattern occurs anywhere in the character list. -/
def hasSubstrChars (pat : List Char) : List Char → Bool
  | [] => startsWithChars pat []
  | c :: cs => startsWithChars pat (c :: cs) || hasSubstrChars pat cs

/-- JavaScript String.prototype.includes: case-sensitive substring test. -/
def strIncludes (msg pat : String) : Bool := hasSubstrChars pat.data msg.data

/-- What the catch block of startCamera decides for a failed attempt. -/
inductive CatchResult
  | cancelled
  | retry (delayMs : Nat)
  | fail
deriving Repr, DecidableEq

/-- The catch block: AbortError / NotAllowedError end the attempt as
cancelled or denied; otherwise an error whose message includes the literal
Timeout or NotReadableError is retried after RETRY_DELAY while retryCount is
below MAX_RETRIES; anything else marks the camera inactive and fails. -/
def catchHandler (errorMessage : String) (retryCount : Nat) : CatchResult :=
  if strIncludes errorMessage "AbortError" || strIncludes errorMessage "NotAllowedError" then
    CatchResult.cancelled
  else if (strIncludes errorMessage "Timeout" || strIncludes errorMessage "NotReadableError")
      && decide (retryCount < maxRetries) then
    CatchResult.retry retryDelayMs
  else
    CatchResult.fail

end AcquireRetry

/- ===================== Device registry (useCamera + App device change) ===================== -/

namespace Registry

/-- The fixed logical camera slots. -/
inductive CamId
  | cam1
  | cam2
  | cam3
deriving Repr, DecidableEq

/-- The per-slot record held in the cameras state. -/
structure Camera where
  active : Bool
  fps : Nat
  face : Bool
  tracking : Bool
  selectedDeviceId : Option String
deriving Repr, DecidableEq

/-- The hook state: the cameras record, the live stream (by the device it was
acquired from) per slot, and the enumerated device list. -/
structure CamState where
  cameras : CamId → Camera
  streams : CamId → Option String
  availableDevices : List String

/-- Object.entries(cameras) enumeration order. -/
def camOrder : List CamId := [CamId.cam1, CamId.cam2, CamId.cam3]

/-- Replace one slot's camera record. -/
def updateCamera (s : CamState) (camId : CamId) (f : Camera → Camera) : CamState :=
  { s with cameras := fun c => if c = camId then f (s.cameras c) else s.cameras c }

/-- Replace one slot's stream binding. -/
def setStream (s : CamState) (camId : CamId) (v : Option String) : CamState :=
  { s with streams := fun c => if c = camId then v else s.streams c }

/-- isDeviceInUse: the first camera, in entry order, that is active and has
the device selected; none otherwise. -/
def isDeviceInUse (s : CamState) (deviceId : String) : Option CamId :=
  camOrder.find? (fun camId =>
    (s.cameras camId).active && ((s.cameras camId).selectedDeviceId == some deviceId))

/-- setSelectedDevice: stores the device choice on the slot. -/
def setSelectedDevice (s : CamState) (camId : CamId) (d : String) : CamState :=
  updateCamera s camId (fun c => { c with selectedDeviceId := some d })

/-- Hardware oracle for one acquisition: whether getUserMedia resolves with a
stream, whether the slot's video element exists, and the frame rate the
track settings report. -/
structure HwEnv where
  gumOk : Bool
  videoElement : Bool
  actualFps : Option Nat
deriving Repr, DecidableEq

/-- The tail of startCamera after the device is resolved and the in-use check
passed: stop and clear any existing stream, request the hardware stream, and
if the video element is available attach it, store it and mark the slot
active with the reported frame rate (defaulting to 60). -/
def acquire (s : CamState) (camId : CamId) (target : String) (hw : HwEnv) :
    Bool × CamState :=
  let s1 := setStream s camId none
  if !hw.gumOk then (false, s1)
  else if !hw.videoElement then (false, s1)
  else
    let fps := hw.actualFps.getD 60
    let s2 := setStream s1 camId (some target)
    (true,
      updateCamera s2 camId (fun c =>
        { c with active := true, fps := fps, selectedDeviceId := some target }))

/-- The target-resolution prefix of startCamera: use the explicit device if
given, else the slot's selected device, else auto-select the first
enumerated device not in use by another camera, recording that choice in the
slot's state. Returns the target and the (possibly updated) state, or none
when no device qualifies. -/
def resolveTarget (s : CamState) (camId : CamId) (deviceId : Option String) :
    Option (String × CamState) :=
  match deviceId.orElse (fun _ => (s.cameras camId).selectedDeviceId) with
  | some d => some (d, s)
  | none =>
    match s.availableDevices.find? (fun d =>
        isDeviceInUse s d == none || isDeviceInUse s d == some camId) with
    | none => none
    | some d => some (d, setSelectedDevice s camId d)

/-- startCamera: resolve the target device, fail when none qualifies, reject
when the target is in use by a different camera, otherwise acquire. -/
def startCamera (s : CamState) (camId : CamId) (deviceId : Option String) (hw : HwEnv) :
    Bool × CamState :=
  match resolveTarget s camId deviceId with
  | none => (false, s)
  | some (target, s1) =>
    match isDeviceInUse s1 target with
    | some owner => if owner != camId then (false, s1) else acquire s1 camId target hw
    | none => acquire s1 camId target hw

/-- stopCamera: stop and clear the stream, then clear the active, face and
tracking flags, preserving the selected device. -/
def stopCamera (s : CamState) (camId : CamId) : CamState :=
  let s1 := setStream s camId none
  updateCamera s1 camId (fun c => { c with active := false, face := false, tracking := false })

/-- handleDeviceChange (App): refused while recording; otherwise stores the
new selection and, when the slot is active, restarts it on the new device. -/
def handleDeviceChange (s : CamState) (isRecording : Bool) (camId : CamId) (d : String)
    (hw : HwEnv) : CamState :=
  if isRecording then s
  else
    let s1 := setSelectedDevice s camId d
    if (s.cameras camId).active then (startCamera s1 camId (some d) hw).2 else s1

/-- Slot c is an active holder of device d. -/
def holds (s : CamState) (c : CamId) (d : String) : Prop :=
  (s.cameras c).active = true ∧ (s.cameras c).selectedDeviceId = some d

/-- Device exclusivity: no two distinct active slots hold the same selected
device id. -/
def exclusive (s : CamState) : Prop :=
  ∀ c1 c2 : CamId, ∀ d : String, holds s c1 d → holds s c2 d → c1 = c2

/-- The initial hook state: all slots inactive with nothing selected. -/
def initState (devices : List String) : CamState :=
  { cameras := fun _ =>
      { active := false, fps := 0, face := false, tracking := false, selectedDeviceId := none },
    streams := fun _ => none,
    availableDevices := devices }

/-- A hardware environment in which acquisition succeeds. -/
def hwOk : HwEnv := { gumOk := true, videoElement := true, actualFps := some 30 }

/-- Two devices enumerated, cam1 started on D1 and cam2 started on D2. -/
def twoActiveState : CamState :=
  (startCamera ((startCamera (initState ["D1", "D2"]) CamId.cam1 (some "D1") hwOk).2)
      CamId.cam2 (some "D2") hwOk).2

/-- The state after the operator changes cam2's device to D1 (already held by
active cam1) through the App's device-change entry point. -/
def afterDeviceChange : CamState :=
  handleDeviceChange twoActiveState false CamId.cam2 "D1" hwOk

end Registry

/- ===================== Supersession (startCamera abort handling) ===================== -/

namespace Supersession

/-- One startCamera invocation: the fresh AbortController id it creates and
the device it requests. -/
structure Attempt where
  ctrl : Nat
  device : String
deriving Repr, DecidableEq

/-- The slot's shared state: the controller currently installed in
abortControllersRef, the set of controllers that have been aborted, the
stream stored in streamsRef and the one attached to the video element
(tagged by the owning controller and device), the streams whose tracks have
been stopped, and the slot's active flag. -/
structure SlotState where
  installedCtrl : Nat
  abortedCtrls : List Nat
  stream : Option (Nat × String)
  videoSrc : Option (Nat × String)
  stopped : List (Nat × String)
  activeFlag : Bool
deriving Repr, DecidableEq

/-- The entry of startCamera: abort the currently installed controller,
install this attempt's fresh controller, and stop and detach any existing
stream for the slot. The recursive retry call re-runs exactly this entry
with a fresh controller. -/
def entry (s : SlotState) (a : Attempt) : SlotState :=
  let s1 := { s with abortedCtrls := s.installedCtrl :: s.abortedCtrls,
                     installedCtrl := a.ctrl }
  match s1.stream with
  | none => s1
  | some old =>
    { s1 with videoSrc := none, stopped := old :: s1.stopped, stream := none }

/-- The check placed before the getUserMedia call: a cancelled attempt
returns false without touching the state. The Bool says whether the attempt
goes on to issue the hardware call. -/
def checkBeforeGum (s : SlotState) (a : Attempt) : Bool :=
  decide (a.ctrl ∉ s.abortedCtrls)

/-- The continuation run when the attempt's getUserMedia resolves with a
stream: if the attempt's controller has been aborted in the meantime the
arriving stream is stopped and the call returns false; otherwise the stream
is attached to the video element, stored in streamsRef and the slot is
marked active once metadata loads. -/
def resumeAfterHw (s : SlotState) (a : Attempt) : Bool × SlotState :=
  if a.ctrl ∈ s.abortedCtrls then
    (false, { s with stopped := (a.ctrl, a.device) :: s.stopped })
  else
    (true, { s with videoSrc := some (a.ctrl, a.device),
                    stream := some (a.ctrl, a.device),
                    activeFlag := true })

/-- The claim's race, without retries: attempt a entered and is awaiting
hardware when attempt b is issued on the same slot; then the two hardware
calls resolve in either order (aFirst chooses which). -/
def runRace (s0 : SlotState) (a b : Attempt) (aFirst : Bool) : SlotState :=
  let s1 := entry s0 a
  let s2 := entry s1 b
  if aFirst then (resumeAfterHw ((resumeAfterHw s2 a).2) b).2
  else (resumeAfterHw ((resumeAfterHw s2 b).2) a).2

/-- A fresh slot: controller 0 installed, nothing aborted, no stream. -/
def initSlot : SlotState :=
  { installedCtrl := 0, abortedCtrls := [], stream := none, videoSrc := none,
    stopped := [], activeFlag := false }

/-- The retry race: attempt a (deviceA) enters, its hardware call fails with
a recoverable error, and while a sleeps the fixed retry delay attempt b
(deviceB) enters and issues its hardware call; a's retry then re-runs the
entry with a fresh controller and issues its own hardware call; b's
hardware call resolves first, then the retry's. -/
def runRetryRace (s0 : SlotState) (a b a2 : Attempt) : SlotState :=
  let s1 := entry s0 a
  let s2 := entry s1 b
  let s3 := entry s2 a2
  let s4 := (resumeAfterHw s3 b).2
  (resumeAfterHw s4 a2).2

end Supersession


/- ===================================================================== -/
/- ============================ THEOREMS =============================== -/
/- ===================================================================== -/

/- ----- C10: calibration progress is total ----- -/

/-- Claim C10: getProgress returns 0 when totalSteps is 0 (the division is
guarded) and otherwise rounds (currentStep / totalSteps) * 100, so for every
state with currentStep ≤ totalSteps the result is a defined integer between
0 and 100. -/
theorem calibration_progress_total (c t : Nat) (h : c ≤ t) :
    Calibration.getProgress c 0 = 0 ∧
    0 ≤ Calibration.getProgress c t ∧
    Calibration.getProgress c t ≤ 100 := by
  refine ⟨by simp [Calibration.getProgress], ?_, ?_⟩
  · unfold Calibration.getProgress
    split
    · norm_num
    · rw [round_eq, Int.le_floor]
      have h0 : (0 : ℚ) ≤ (c : ℚ) / (t : ℚ) * 100 := by positivity
      push_cast
      linarith
  · unfold Calibration.getProgress
    split
    · norm_num
    · next ht =>
      have htpos : (0 : ℚ) < (t : ℚ) := by
        exact_mod_cast Nat.pos_of_ne_zero ht
      have hle1 : (c : ℚ) / (t : ℚ) ≤ 1 := by
        rw [div_le_one htpos]
        exact_mod_cast h
      have hle : (c : ℚ) / (t : ℚ) * 100 ≤ 100 := by nlinarith
      rw [round_eq]
      have hlt : (c : ℚ) / (t : ℚ) * 100 + 1 / 2 < 101 := by linarith
      have hfl : ⌊(c : ℚ) / (t : ℚ) * 100 + 1 / 2⌋ < 101 := by
        refine Int.floor_lt.2 ?_
        exact_mod_cast hlt
      omega

/-- Witness for C10 at currentStep = 2, totalSteps = 5. -/
theorem calibration_progress_total_witness :
    Calibration.getProgress 2 0 = 0 ∧
    0 ≤ Calibration.getProgress 2 5 ∧
    Calibration.getProgress 2 5 ≤ 100 :=
  calibration_progress_total 2 5 (by decide)

/- ----- C8: tracking tick rate and skip ----- -/

/-- Claim C8: startTracking begins a fixed-period timer at the configured
tracking rate of 10 samples per second (period 1000 / trackingFps = 100 ms);
on a tick with the channel open exactly one structured message holding the
current frame is sent, and on a tick with the channel closed nothing is sent
and there is no fallback delivery path. -/
theorem tracking_tick_rate_and_skip :
    Tracking.trackingFps = 10 ∧
    Tracking.startTracking false = some 100 ∧
    (∀ frame : String,
      Tracking.trackingTick true (some frame) = [Tracking.TrackMsg.trackingFrame frame]) ∧
    (∀ video : Option String, Tracking.trackingTick false video = []) := by
  refine ⟨rfl, rfl, fun frame => rfl, fun video => ?_⟩
  cases video <;> rfl

/- ----- C9: stop-all recording aggregation ----- -/

/-- The stop loop visits every camera of its list, whatever the per-camera
stop results are. -/
theorem stopLoop_attempts (f : StopAll.CamId → Bool) :
    ∀ (l : List StopAll.CamId) (b : Bool), (StopAll.stopLoop f l b).1 = l := by
  intro l
  induction l with
  | nil => intro b; rfl
  | cons c rest ih =>
    intro b
    simp [StopAll.stopLoop, ih]

/-- The stop loop's aggregate flag is its accumulator conjoined with the
per-camera results. -/
theorem stopLoop_result (f : StopAll.CamId → Bool) :
    ∀ (l : List StopAll.CamId) (b : Bool),
      (StopAll.stopLoop f l b).2 = (b && l.all f) := by
  intro l
  induction l with
  | nil => intro b; simp [StopAll.stopLoop]
  | cons c rest ih =>
    intro b
    simp only [StopAll.stopLoop, ih, List.all_cons]
    cases h : f c <;> simp

/-- Claim C9: when recordings are stopped together, stopRecording is
attempted for every active camera — even if an earlier camera's stop failed —
and the aggregate outcome is success exactly when every attempted stop
returned success. -/
theorem stop_all_recording_aggregation (active stopResult : StopAll.CamId → Bool) :
    (StopAll.handleToggleRecordingStop active stopResult).1
        = StopAll.camOrder.filter (fun c => active c) ∧
    ((StopAll.handleToggleRecordingStop active stopResult).2 = true ↔
      ∀ c ∈ StopAll.camOrder.filter (fun c => active c), stopResult c = true) := by
  unfold StopAll.handleToggleRecordingStop
  refine ⟨stopLoop_attempts stopResult _ true, ?_⟩
  rw [stopLoop_result stopResult _ true, Bool.true_and, List.all_eq_true]

/- ----- C5: upload throttle ----- -/

/-- Claim C5: sendFrame enforces a 250 ms minimum interval — a call arriving
less than 250 ms after the last forwarded upload returns immediately with the
state unchanged (dropped, not queued) — and for calls at times t, t + 50 and
t + 260 exactly the calls at t and t + 260 are forwarded. -/
theorem upload_throttle_250ms (s : Recorder.RecState) (t : Nat)
    (hrec : s.isRecording = true) (hsess : s.recordingSession.isSome = true)
    (hgap : s.lastUploadTime + 250 ≤ t) :
    (∀ (s2 : Recorder.RecState) (e : Recorder.FrameEnv),
        e.now - s2.lastUploadTime < 250 → Recorder.sendFrame s2 e = (false, s2)) ∧
    Recorder.sendFrame s (Recorder.goodEnv t) = (true, { s with lastUploadTime := t }) ∧
    Recorder.sendFrame { s with lastUploadTime := t } (Recorder.goodEnv (t + 50))
        = (false, { s with lastUploadTime := t }) ∧
    Recorder.sendFrame { s with lastUploadTime := t } (Recorder.goodEnv (t + 260))
        = (true, { s with lastUploadTime := t + 260 }) := by
  refine ⟨?_, ?_, ?_, ?_⟩
  · intro s2 e hlt
    unfold Recorder.sendFrame
    by_cases hg : (s2.isRecording && s2.recordingSession.isSome && e.videoPresent) = true
    · simp [hg, hlt]
    · simp only [Bool.not_eq_true] at hg
      simp [hg]
  · have hthr : ¬ (t - s.lastUploadTime < 250) := by omega
    simp [Recorder.sendFrame, Recorder.goodEnv, hrec, hsess, hthr]
  · have hthr : (t + 50) - t < 250 := by omega
    simp [Recorder.sendFrame, Recorder.goodEnv, hrec, hsess, hthr]
  · have hthr : ¬ ((t + 260) - t < 250) := by omega
    simp [Recorder.sendFrame, Recorder.goodEnv, hrec, hsess, hthr]

/-- Witness for C5: recording active with session "sess", last upload at
time 0, calls at 1000, 1050 and 1260. -/
theorem upload_throttle_250ms_witness :
    (∀ (s2 : Recorder.RecState) (e : Recorder.FrameEnv),
        e.now - s2.lastUploadTime < 250 → Recorder.sendFrame s2 e = (false, s2)) ∧
    Recorder.sendFrame ⟨true, some "sess", 0⟩ (Recorder.goodEnv 1000)
        = (true, ⟨true, some "sess", 1000⟩) ∧
    Recorder.sendFrame ⟨true, some "sess", 1000⟩ (Recorder.goodEnv 1050)
        = (false, ⟨true, some "sess", 1000⟩) ∧
    Recorder.sendFrame ⟨true, some "sess", 1000⟩ (Recorder.goodEnv 1260)
        = (true, ⟨true, some "sess", 1260⟩) :=
  upload_throttle_250ms ⟨true, some "sess", 0⟩ 1000 rfl rfl (by decide)

/- ----- C6: acquisition timeout and retry (code bug) ----- -/

/-- Claim C6 (evaluated at the failing input): the acquisition path races
getUserMedia against a 10 s timeout whose rejection message is the literal
timeoutMessage; the catch block retries only when the message includes the
capitalised literal Timeout (or NotReadableError), and timeoutMessage
contains only the lower-case spelling, so a timed-out attempt is never
retried and instead fails terminally — while a NotReadableError attempt is
retried with the fixed 1 s delay up to 3 times and a NotAllowedError
(permission denied) attempt is never retried. -/
theorem acquisition_timeout_not_retried :
    AcquireRetry.gumTimeoutMs = 10000 ∧
    AcquireRetry.retryDelayMs = 1000 ∧
    AcquireRetry.maxRetries = 3 ∧
    AcquireRetry.strIncludes AcquireRetry.timeoutMessage "timeout" = true ∧
    AcquireRetry.strIncludes AcquireRetry.timeoutMessage "Timeout" = false ∧
    AcquireRetry.catchHandler AcquireRetry.timeoutMessage 0 = AcquireRetry.CatchResult.fail ∧
    AcquireRetry.catchHandler "NotReadableError: Could not start video source" 0
        = AcquireRetry.CatchResult.retry 1000 ∧
    AcquireRetry.catchHandler "NotReadableError: Could not start video source" 2
        = AcquireRetry.CatchResult.retry 1000 ∧
    AcquireRetry.catchHandler "NotReadableError: Could not start video source" 3
        = AcquireRetry.CatchResult.fail ∧
    (∀ retryCount : Nat,
      AcquireRetry.catchHandler "NotAllowedError: Permission denied" retryCount
        = AcquireRetry.CatchResult.cancelled) := by
  refine ⟨rfl, rfl, rfl, by decide, by decide, by decide, by decide, by decide, by decide,
          fun retryCount => ?_⟩
  unfold AcquireRetry.catchHandler
  have h : (AcquireRetry.strIncludes "NotAllowedError: Permission denied" "AbortError"
      || AcquireRetry.strIncludes "NotAllowedError: Permission denied" "NotAllowedError") = true := by
    decide
  rw [h]
  rfl

/- ----- C7: calibration finalize ----- -/

/-- As long as the next step index stays below totalSteps, an advance loads
the next point and does not finalize. -/
theorem runAdvances_mid (fr : Calibration.FinishResult) (N : Nat) :
    ∀ (k j : Nat), j + k < N →
      Calibration.runAdvances (Calibration.midState N j) fr k
        = (Calibration.midState N (j + k), 0) := by
  intro k
  induction k with
  | zero =>
    intro j h
    simp [Calibration.runAdvances]
  | succ k ih =>
    intro j h
    have hlt : ¬ (N ≤ j + 1) := by omega
    have hstep : Calibration.nextCalibrationPoint (Calibration.midState N j) fr true
        = (Calibration.midState N (j + 1), false) := by
      simp [Calibration.nextCalibrationPoint, Calibration.loadCalibrationPoint,
            Calibration.midState, hlt]
    have ih2 := ih (j + 1) (by omega)
    simp only [Calibration.runAdvances, hstep, ih2]
    have : j + 1 + k = j + (k + 1) := by omega
    simp [this]

/-- Splitting a run of advances. -/
theorem runAdvances_add (fr : Calibration.FinishResult) (m n : Nat) :
    ∀ s, Calibration.runAdvances s fr (m + n)
      = ((Calibration.runAdvances (Calibration.runAdvances s fr m).1 fr n).1,
         (Calibration.runAdvances s fr m).2
           + (Calibration.runAdvances (Calibration.runAdvances s fr m).1 fr n).2) := by
  induction m with
  | zero =>
    intro s
    simp [Calibration.runAdvances]
  | succ m ih =>
    intro s
    have hsucc : m + 1 + n = (m + n) + 1 := by omega
    rw [hsucc]
    simp only [Calibration.runAdvances, ih]
    simp [Nat.add_assoc]

/-- Claim C7: starting a calibration with totalSteps = N and advancing after
each of the N captured samples invokes finalize exactly once — on the Nth
advance, when the next step index reaches N, instead of loading another
point — and the complete flag is false at every point before that final
advance, becoming true only after the successful finalize, with the accuracy
taken from the backend result. -/
theorem calibration_finalize_once (N : Nat) (hN : 1 ≤ N) (fr : Calibration.FinishResult)
    (hok : fr.ok = true) :
    Calibration.startCalibration Calibration.initState true N true
        = Calibration.midState N 0 ∧
    (∀ k, k < N → Calibration.runAdvances (Calibration.midState N 0) fr k
        = (Calibration.midState N k, 0)) ∧
    (Calibration.runAdvances (Calibration.midState N 0) fr N).2 = 1 ∧
    (Calibration.runAdvances (Calibration.midState N 0) fr N).1.calibrationComplete = true ∧
    (Calibration.runAdvances (Calibration.midState N 0) fr N).1.isCalibrating = false ∧
    (Calibration.runAdvances (Calibration.midState N 0) fr N).1.calibrationAccuracy
        = fr.accuracy.getD 0 := by
  have hstart : Calibration.startCalibration Calibration.initState true N true
      = Calibration.midState N 0 := by
    simp [Calibration.startCalibration, Calibration.loadCalibrationPoint,
          Calibration.initState, Calibration.midState]
  have hmid : ∀ k, k < N → Calibration.runAdvances (Calibration.midState N 0) fr k
      = (Calibration.midState N k, 0) := by
    intro k hk
    have := runAdvances_mid fr N k 0 (by omega)
    simpa using this
  have hge : N ≤ (N - 1) + 1 := by omega
  have hlast : Calibration.runAdvances (Calibration.midState N (N - 1)) fr 1
      = ({ isCalibrating := false, currentStep := N - 1, totalSteps := N,
           currentPoint := some (N - 1), calibrationComplete := true,
           calibrationAccuracy := fr.accuracy.getD 0 }, 1) := by
    simp [Calibration.runAdvances, Calibration.nextCalibrationPoint,
          Calibration.finishCalibration, Calibration.midState, hge, hok]
  have hsplit := runAdvances_add fr (N - 1) 1 (Calibration.midState N 0)
  have hNsum : (N - 1) + 1 = N := by omega
  rw [hNsum] at hsplit
  have hm := hmid (N - 1) (by omega)
  rw [hm] at hsplit
  simp only [hsplit, hlast]
  exact ⟨hstart, hmid, by trivial, by trivial, by trivial, by trivial⟩

/-- Witness for C7: totalSteps = 5, backend finalize succeeding with
accuracy 17/20. -/
theorem calibration_finalize_once_witness :
    Calibration.startCalibration Calibration.initState true 5 true
        = Calibration.midState 5 0 ∧
    (∀ k, k < 5 → Calibration.runAdvances (Calibration.midState 5 0) ⟨true, some (17/20)⟩ k
        = (Calibration.midState 5 k, 0)) ∧
    (Calibration.runAdvances (Calibration.midState 5 0) ⟨true, some (17/20)⟩ 5).2 = 1 ∧
    (Calibration.runAdvances (Calibration.midState 5 0)
        ⟨true, some (17/20)⟩ 5).1.calibrationComplete = true ∧
    (Calibration.runAdvances (Calibration.midState 5 0)
        ⟨true, some (17/20)⟩ 5).1.isCalibrating = false ∧
    (Calibration.runAdvances (Calibration.midState 5 0)
        ⟨true, some (17/20)⟩ 5).1.calibrationAccuracy = Option.getD (some (17/20)) 0 :=
  calibration_finalize_once 5 (by decide) ⟨true, some (17/20)⟩ rfl

/- ----- C3: reconnect bound and backoff ----- -/

/-- One automatic event preserves exhaustion: a close with all 5 attempts
used schedules nothing, and with no pending timer there is nothing to fire. -/
theorem exhausted_autoStep (s : ReconnectChannel.WSState) (e : ReconnectChannel.AutoEvent)
    (h : ReconnectChannel.exhausted s) :
    ReconnectChannel.exhausted (ReconnectChannel.autoStep s e) := by
  obtain ⟨hatt, htim⟩ := h
  cases e with
  | close =>
    have hnot : ¬ (s.reconnectAttempts < 5) := by omega
    simp [ReconnectChannel.autoStep, ReconnectChannel.onClose, hnot,
          ReconnectChannel.exhausted, hatt, htim]
  | timer =>
    simp [ReconnectChannel.autoStep, ReconnectChannel.fireTimer, htim,
          ReconnectChannel.exhausted, hatt]

/-- Exhaustion is preserved by every sequence of automatic events. -/
theorem exhausted_autoRun (l : List ReconnectChannel.AutoEvent) :
    ∀ s : ReconnectChannel.WSState, ReconnectChannel.exhausted s →
      ReconnectChannel.exhausted (ReconnectChannel.autoRun s l) := by
  induction l with
  | nil => intro s h; exact h
  | cons e rest ih =>
    intro s h
    exact ih _ (exhausted_autoStep s e h)

/-- Claim C3 (amended): every close with fewer than 5 attempts used schedules
exactly one reconnect after min(1000 * 2^attempts, 30000) ms, whose firing
increments the attempt counter; a close at 5 attempts schedules nothing, and
from an exhausted channel no sequence of automatic events ever schedules a
reconnect; a caller-initiated disconnect clears any pending timer and resets
the counter to 0; an explicit reconnect call leaves the counter unchanged —
it is reset to 0 only by a successful open (or by disconnect). -/
theorem reconnect_bound_and_backoff :
    (∀ s : ReconnectChannel.WSState, s.reconnectAttempts < 5 →
      ReconnectChannel.onClose s
        = { s with wsConnected := false,
                   reconnectTimer := some (min (1000 * 2 ^ s.reconnectAttempts) 30000) }) ∧
    (∀ s : ReconnectChannel.WSState,
      (ReconnectChannel.reconnectTimerBody s).reconnectAttempts = s.reconnectAttempts + 1) ∧
    (∀ s : ReconnectChannel.WSState, 5 ≤ s.reconnectAttempts →
      ReconnectChannel.onClose s = { s with wsConnected := false }) ∧
    (∀ (s : ReconnectChannel.WSState) (l : List ReconnectChannel.AutoEvent),
      ReconnectChannel.exhausted s →
        ReconnectChannel.exhausted (ReconnectChannel.autoRun s l)) ∧
    (∀ s : ReconnectChannel.WSState,
      (ReconnectChannel.disconnectWebSocket s).reconnectTimer = none ∧
      (ReconnectChannel.disconnectWebSocket s).reconnectAttempts = 0) ∧
    (∀ s : ReconnectChannel.WSState,
      (ReconnectChannel.connectWebSocket s).reconnectAttempts = s.reconnectAttempts) ∧
    (∀ s : ReconnectChannel.WSState, (ReconnectChannel.onOpen s).reconnectAttempts = 0) := by
  refine ⟨?_, fun s => rfl, ?_, fun s l h => exhausted_autoRun l s h,
          fun s => ⟨rfl, rfl⟩, fun s => rfl, fun s => rfl⟩
  · intro s h
    simp [ReconnectChannel.onClose, ReconnectChannel.backoffDelay, h]
  · intro s h
    have hnot : ¬ (s.reconnectAttempts < 5) := by omega
    simp [ReconnectChannel.onClose, hnot]

/-- Witness for C3 (amended) at concrete channel states: a close at 2 used
attempts schedules a 4000 ms reconnect, and an exhausted channel stays
exhausted across a further close and a timer event. -/
theorem reconnect_bound_and_backoff_witness :
    ReconnectChannel.onClose
        { wsConnected := true, reconnectAttempts := 2, reconnectTimer := none, socketGen := 7 }
      = { wsConnected := false, reconnectAttempts := 2,
          reconnectTimer := some 4000, socketGen := 7 } ∧
    ReconnectChannel.exhausted (ReconnectChannel.autoRun
        { wsConnected := false, reconnectAttempts := 5, reconnectTimer := none, socketGen := 3 }
        [ReconnectChannel.AutoEvent.close, ReconnectChannel.AutoEvent.timer]) := by
  constructor
  · have h := reconnect_bound_and_backoff.1
      { wsConnected := true, reconnectAttempts := 2, reconnectTimer := none, socketGen := 7 }
      (by decide)
    simpa using h
  · exact reconnect_bound_and_backoff.2.2.2.1
      { wsConnected := false, reconnectAttempts := 5, reconnectTimer := none, socketGen := 3 }
      [ReconnectChannel.AutoEvent.close, ReconnectChannel.AutoEvent.timer]
      ⟨by decide, rfl⟩

/-- Counterexample for C3 as stated: an explicit reconnect call on an
exhausted channel does not reset the attempt counter to 0 — connectWebSocket
leaves it at 5; the counter is reset only by the onopen handler or by
disconnectWebSocket. -/
theorem reconnect_explicit_call_no_reset :
    (ReconnectChannel.connectWebSocket
        { wsConnected := false, reconnectAttempts := 5, reconnectTimer := none,
          socketGen := 3 }).reconnectAttempts = 5 ∧
    ¬ ((ReconnectChannel.connectWebSocket
        { wsConnected := false, reconnectAttempts := 5, reconnectTimer := none,
          socketGen := 3 }).reconnectAttempts = 0) := by
  exact ⟨rfl, by decide⟩

/- ----- C4: metadata-then-binary pairing ----- -/

/-- A leading binary message fails the pairing walk. -/
theorem binariesPaired_not_binary_head (c : String) (k : Nat) (l : List Pairing.WsMsg) :
    Pairing.binariesPaired (Pairing.WsMsg.binary c k :: l) = false := by
  rfl

/-- Prepending a metadata envelope to a paired trace keeps it paired. -/
theorem binariesPaired_cons_meta (c : String) (n : Option Nat) (l : List Pairing.WsMsg)
    (h : Pairing.binariesPaired l = true) :
    Pairing.binariesPaired (Pairing.WsMsg.metaEnv c n :: l) = true := by
  match l with
  | [] => rfl
  | Pairing.WsMsg.metaEnv c2 n2 :: rest =>
    simpa [Pairing.binariesPaired] using h
  | Pairing.WsMsg.binary c2 k :: rest =>
    rw [binariesPaired_not_binary_head] at h
    cases h

/-- Prepending an adjacent metadata/binary pair keeps a trace paired. -/
theorem binariesPaired_cons_pair (c1 : String) (n : Option Nat) (c2 : String) (k : Nat)
    (l : List Pairing.WsMsg) (h : Pairing.binariesPaired l = true) :
    Pairing.binariesPaired
      (Pairing.WsMsg.metaEnv c1 n :: Pairing.WsMsg.binary c2 k :: l) = true := by
  simpa [Pairing.binariesPaired] using h

/-- Every chunk-path trace is paired: each nonempty chunk sent on an open
socket contributes its envelope immediately followed by its binary. -/
theorem chunkTrace_paired (cam : String) :
    ∀ events : List (Bool × Nat),
      Pairing.binariesPaired (Pairing.chunkTrace cam events) = true := by
  intro events
  induction events with
  | nil => rfl
  | cons e rest ih =>
    by_cases h : (0 < e.2 && e.1) = true
    · simp only [Pairing.chunkTrace, Pairing.ondataavailable, h, if_true]
      exact binariesPaired_cons_pair _ _ _ _ _ ih
    · simp only [Pairing.chunkTrace, Pairing.ondataavailable, h, if_false]
      simpa using ih

/-- Every envelope of a chunk-path trace carries no frame number at all. -/
theorem chunkTrace_numbers_none (cam : String) :
    ∀ events : List (Bool × Nat),
      ∀ n ∈ Pairing.envelopeNumbers (Pairing.chunkTrace cam events), n = none := by
  intro events
  induction events with
  | nil => intro n hn; cases hn
  | cons e rest ih =>
    intro n hn
    by_cases h : (0 < e.2 && e.1) = true
    · simp only [Pairing.chunkTrace, Pairing.ondataavailable, h, if_true,
                 List.cons_append, List.nil_append] at hn
      simp only [Pairing.envelopeNumbers, List.mem_cons] at hn
      rcases hn with hn | hn
      · exact hn
      · exact ih n hn
    · simp only [Pairing.chunkTrace, Pairing.ondataavailable, h, if_false,
                 List.nil_append] at hn
      exact ih n hn

/-- Splitting a trace splits its envelope-number list. -/
theorem envelopeNumbers_append (l1 l2 : List Pairing.WsMsg) :
    Pairing.envelopeNumbers (l1 ++ l2)
      = Pairing.envelopeNumbers l1 ++ Pairing.envelopeNumbers l2 := by
  induction l1 with
  | nil => rfl
  | cons m rest ih =>
    cases m with
    | metaEnv c n => simp [Pairing.envelopeNumbers, ih]
    | binary c k => simp [Pairing.envelopeNumbers, ih]

/-- Splitting a trace splits its carried-number list. -/
theorem envelopeNats_append (l1 l2 : List Pairing.WsMsg) :
    Pairing.envelopeNats (l1 ++ l2)
      = Pairing.envelopeNats l1 ++ Pairing.envelopeNats l2 := by
  induction l1 with
  | nil => rfl
  | cons m rest ih =>
    cases m with
    | metaEnv c n =>
      cases n with
      | none => simp [Pairing.envelopeNats, ih]
      | some k => simp [Pairing.envelopeNats, ih]
    | binary c k => simp [Pairing.envelopeNats, ih]

/-- One camera's envelope numbers form a sublist of the whole channel's. -/
theorem envelopeNatsFor_sublist (cam : String) :
    ∀ l : List Pairing.WsMsg,
      (Pairing.envelopeNatsFor cam l).Sublist (Pairing.envelopeNats l) := by
  intro l
  induction l with
  | nil => exact List.Sublist.refl _
  | cons m rest ih =>
    cases m with
    | metaEnv c n =>
      cases n with
      | none =>
        simpa [Pairing.envelopeNats, Pairing.envelopeNatsFor] using ih
      | some k =>
        by_cases hc : c = cam
        · simpa [Pairing.envelopeNats, Pairing.envelopeNatsFor, hc] using ih.cons₂ k
        · simpa [Pairing.envelopeNats, Pairing.envelopeNatsFor, hc] using ih.cons k
    | binary c k =>
      simpa [Pairing.envelopeNats, Pairing.envelopeNatsFor] using ih

/-- A concatenation of blocks that are each empty, a lone envelope, or an
adjacent envelope/binary pair is paired. -/
theorem binariesPaired_flatten :
    ∀ bs : List (List Pairing.WsMsg),
      (∀ b ∈ bs, b = [] ∨ (∃ c n0, b = [Pairing.WsMsg.metaEnv c n0]) ∨
        (∃ c n0 c2 k, b = [Pairing.WsMsg.metaEnv c n0, Pairing.WsMsg.binary c2 k])) →
      Pairing.binariesPaired bs.flatten = true := by
  intro bs
  induction bs with
  | nil => intro h; rfl
  | cons b rest ih =>
    intro h
    have hb := h b (List.mem_cons_self _ _)
    have hrest := ih (fun x hx => h x (List.mem_cons_of_mem _ hx))
    rcases hb with rfl | ⟨c, n0, rfl⟩ | ⟨c, n0, c2, k, rfl⟩
    · simpa [List.flatten_cons] using hrest
    · simpa [List.flatten_cons] using binariesPaired_cons_meta c n0 _ hrest
    · simpa [List.flatten_cons] using binariesPaired_cons_pair c n0 c2 k _ hrest

/-- Running a concatenation of schedules. -/
theorem runSched_append (calls : Nat → Pairing.FrameCall) :
    ∀ (l1 l2 : List Pairing.SendEv) (st : Pairing.FrameExec),
      Pairing.runSched calls st (l1 ++ l2)
        = Pairing.runSched calls (Pairing.runSched calls st l1) l2 := by
  intro l1
  induction l1 with
  | nil => intro l2 st; rfl
  | cons e rest ih =>
    intro l2 st
    cases e with
    | start i =>
      simp only [List.cons_append, Pairing.runSched]
      exact ih l2 _
    | resume i =>
      simp only [List.cons_append, Pairing.runSched]
      exact ih l2 _

/-- The synchronous prefix of an invocation preserves the number invariant:
the envelope it may send carries the freshly incremented counter, above
every number already on the channel. -/
theorem startStep_numbersInv (calls : Nat → Pairing.FrameCall) (st : Pairing.FrameExec)
    (i : Nat) (h : Pairing.numbersInv st) :
    Pairing.numbersInv (Pairing.startStep calls st i) := by
  obtain ⟨h1, h2, h3⟩ := h
  unfold Pairing.startStep
  by_cases hs : i ∈ st.started
  · rw [if_pos hs]
    exact ⟨h1, h2, h3⟩
  · rw [if_neg hs]
    by_cases hc : (calls i).connected = true
    · rw [if_neg (by simp [hc])]
      by_cases hm : (calls i).metaSendOk = true
      · rw [if_neg (by simp [hm])]
        refine ⟨?_, ?_, ?_⟩
        · show Pairing.allCarryNumbers (Pairing.envelopeNumbers
            (st.trace ++ [Pairing.WsMsg.metaEnv (calls i).cameraId
              (some (st.frameCount + 1))])) = true
          rw [envelopeNumbers_append]
          simp only [Pairing.allCarryNumbers, List.all_append] at h1 ⊢
          simp [h1, Pairing.envelopeNumbers]
        · show (Pairing.envelopeNats
            (st.trace ++ [Pairing.WsMsg.metaEnv (calls i).cameraId
              (some (st.frameCount + 1))])).Pairwise (· < ·)
          rw [envelopeNats_append]
          refine List.pairwise_append.2 ⟨h2, ?_, ?_⟩
          · simp [Pairing.envelopeNats]
          · intro a ha b hb
            simp only [Pairing.envelopeNats, List.mem_singleton] at hb
            have := h3 a ha
            omega
        · intro m hm2
          show m ≤ st.frameCount + 1
          have hm3 : m ∈ Pairing.envelopeNats
              (st.trace ++ [Pairing.WsMsg.metaEnv (calls i).cameraId
                (some (st.frameCount + 1))]) := hm2
          rw [envelopeNats_append] at hm3
          rcases List.mem_append.1 hm3 with hm3 | hm3
          · have := h3 m hm3
            omega
          · simp only [Pairing.envelopeNats, List.mem_singleton] at hm3
            omega
      · have hm0 : (calls i).metaSendOk = false := by
          simpa [Bool.not_eq_true] using hm
        rw [if_pos (by simp [hm0])]
        refine ⟨h1, h2, ?_⟩
        intro m hm2
        show m ≤ st.frameCount + 1
        have := h3 m hm2
        omega
    · have hc0 : (calls i).connected = false := by
        simpa [Bool.not_eq_true] using hc
      rw [if_pos (by simp [hc0])]
      exact ⟨h1, h2, h3⟩

/-- A resumed continuation sends only a binary message, leaving the envelope
numbers untouched. -/
theorem resumeStep_numbersInv (calls : Nat → Pairing.FrameCall) (st : Pairing.FrameExec)
    (i : Nat) (h : Pairing.numbersInv st) :
    Pairing.numbersInv (Pairing.resumeStep calls st i) := by
  obtain ⟨h1, h2, h3⟩ := h
  unfold Pairing.resumeStep
  by_cases hp : i ∈ st.pendingBin
  · rw [if_pos hp]
    by_cases hb : (calls i).binSendOk = true
    · rw [if_pos hb]
      refine ⟨?_, ?_, ?_⟩
      · show Pairing.allCarryNumbers (Pairing.envelopeNumbers
          (st.trace ++ [Pairing.WsMsg.binary (calls i).cameraId 0])) = true
        rw [envelopeNumbers_append]
        simp only [Pairing.allCarryNumbers, List.all_append] at h1 ⊢
        simp [h1, Pairing.envelopeNumbers]
      · show (Pairing.envelopeNats
          (st.trace ++ [Pairing.WsMsg.binary (calls i).cameraId 0])).Pairwise (· < ·)
        rw [envelopeNats_append]
        simpa [Pairing.envelopeNats] using h2
      · intro m hm2
        show m ≤ st.frameCount
        have hm3 : m ∈ Pairing.envelopeNats
            (st.trace ++ [Pairing.WsMsg.binary (calls i).cameraId 0]) := hm2
        rw [envelopeNats_append] at hm3
        simp only [Pairing.envelopeNats, List.append_nil] at hm3
        exact h3 m hm3
    · rw [if_neg hb]
      exact ⟨h1, h2, h3⟩
  · rw [if_neg hp]
    exact ⟨h1, h2, h3⟩

/-- The number invariant holds after every schedule — whatever interleaving
the event loop produces for the overlapping invocations. -/
theorem runSched_numbersInv (calls : Nat → Pairing.FrameCall) :
    ∀ (sched : List Pairing.SendEv) (st : Pairing.FrameExec),
      Pairing.numbersInv st → Pairing.numbersInv (Pairing.runSched calls st sched) := by
  intro sched
  induction sched with
  | nil => intro st h; exact h
  | cons e rest ih =>
    intro st h
    cases e with
    | start i => exact ih _ (startStep_numbersInv calls st i h)
    | resume i => exact ih _ (resumeStep_numbersInv calls st i h)

/-- Under the serialized schedule the trace is a concatenation of per-call
blocks (nothing, a lone envelope, or an adjacent envelope/binary pair), each
call drains its own pending binary before the next starts, and only calls
below n have started. -/
theorem serialized_run_blocks (calls : Nat → Pairing.FrameCall) :
    ∀ n : Nat,
      (Pairing.runSched calls Pairing.initExec (Pairing.serializedSched n)).pendingBin = [] ∧
      (∀ j ∈ (Pairing.runSched calls Pairing.initExec (Pairing.serializedSched n)).started,
        j < n) ∧
      ∃ bs : List (List Pairing.WsMsg),
        (Pairing.runSched calls Pairing.initExec (Pairing.serializedSched n)).trace
          = bs.flatten ∧
        (∀ b ∈ bs, b = [] ∨ (∃ c n0, b = [Pairing.WsMsg.metaEnv c n0]) ∨
          (∃ c n0 c2 k, b = [Pairing.WsMsg.metaEnv c n0, Pairing.WsMsg.binary c2 k])) := by
  intro n
  induction n with
  | zero =>
    refine ⟨rfl, ?_, [], rfl, ?_⟩
    · intro j hj
      simp [Pairing.runSched, Pairing.initExec, Pairing.serializedSched] at hj
    · intro b hb
      cases hb
  | succ n ih =>
    obtain ⟨hpend, hstarted, bs, htr, hgood⟩ := ih
    set stn := Pairing.runSched calls Pairing.initExec (Pairing.serializedSched n) with hstn
    have hrun : Pairing.runSched calls Pairing.initExec (Pairing.serializedSched (n + 1))
        = Pairing.resumeStep calls (Pairing.startStep calls stn n) n := by
      show Pairing.runSched calls Pairing.initExec
        (Pairing.serializedSched n ++ [Pairing.SendEv.start n, Pairing.SendEv.resume n]) = _
      rw [runSched_append]
      rfl
    have hn : n ∉ stn.started := fun hmem => lt_irrefl n (hstarted n hmem)
    have hnp : n ∉ stn.pendingBin := by
      rw [hpend]
      exact List.not_mem_nil n
    rw [hrun]
    by_cases hc : (calls n).connected = true
    · by_cases hm : (calls n).metaSendOk = true
      · have hstart : Pairing.startStep calls stn n
            = { stn with started := n :: stn.started,
                         frameCount := stn.frameCount + 1,
                         trace := stn.trace ++ [Pairing.WsMsg.metaEnv (calls n).cameraId
                           (some (stn.frameCount + 1))],
                         pendingBin := stn.pendingBin ++ [n] } := by
          unfold Pairing.startStep
          rw [if_neg hn, if_neg (by simp [hc]), if_neg (by simp [hm])]
        rw [hstart]
        have hpend1 : stn.pendingBin ++ [n] = [n] := by
          rw [hpend]
          rfl
        have hmem : n ∈ stn.pendingBin ++ [n] := by
          rw [hpend1]
          exact List.mem_singleton.2 rfl
        by_cases hb : (calls n).binSendOk = true
        · have hres : Pairing.resumeStep calls
              { stn with started := n :: stn.started,
                         frameCount := stn.frameCount + 1,
                         trace := stn.trace ++ [Pairing.WsMsg.metaEnv (calls n).cameraId
                           (some (stn.frameCount + 1))],
                         pendingBin := stn.pendingBin ++ [n] } n
              = { stn with started := n :: stn.started,
                           frameCount := stn.frameCount + 1,
                           trace := (stn.trace ++ [Pairing.WsMsg.metaEnv (calls n).cameraId
                             (some (stn.frameCount + 1))])
                             ++ [Pairing.WsMsg.binary (calls n).cameraId 0],
                           pendingBin := (stn.pendingBin ++ [n]).erase n } := by
            unfold Pairing.resumeStep
            rw [if_pos hmem, if_pos hb]
          rw [hres]
          refine ⟨?_, ?_, bs ++ [[Pairing.WsMsg.metaEnv (calls n).cameraId
              (some (stn.frameCount + 1)), Pairing.WsMsg.binary (calls n).cameraId 0]],
              ?_, ?_⟩
          · show (stn.pendingBin ++ [n]).erase n = []
            rw [hpend1, List.erase_cons_head]
          · intro j hj
            rcases List.mem_cons.1 hj with rfl | hj
            · omega
            · have := hstarted j hj
              omega
          · show (stn.trace ++ [Pairing.WsMsg.metaEnv (calls n).cameraId
                (some (stn.frameCount + 1))])
                ++ [Pairing.WsMsg.binary (calls n).cameraId 0] = _
            rw [htr, List.flatten_append, List.append_assoc]
            rfl
          · intro b hb2
            rcases List.mem_append.1 hb2 with hb2 | hb2
            · exact hgood b hb2
            · right; right
              exact ⟨_, _, _, _, List.mem_singleton.1 hb2⟩
        · have hres : Pairing.resumeStep calls
              { stn with started := n :: stn.started,
                         frameCount := stn.frameCount + 1,
                         trace := stn.trace ++ [Pairing.WsMsg.metaEnv (calls n).cameraId
                           (some (stn.frameCount + 1))],
                         pendingBin := stn.pendingBin ++ [n] } n
              = { stn with started := n :: stn.started,
                           frameCount := stn.frameCount + 1,
                           trace := stn.trace ++ [Pairing.WsMsg.metaEnv (calls n).cameraId
                             (some (stn.frameCount + 1))],
                           pendingBin := (stn.pendingBin ++ [n]).erase n } := by
            unfold Pairing.resumeStep
            rw [if_pos hmem, if_neg hb]
          rw [hres]
          refine ⟨?_, ?_, bs ++ [[Pairing.WsMsg.metaEnv (calls n).cameraId
              (some (stn.frameCount + 1))]], ?_, ?_⟩
          · show (stn.pendingBin ++ [n]).erase n = []
            rw [hpend1, List.erase_cons_head]
          · intro j hj
            rcases List.mem_cons.1 hj with rfl | hj
            · omega
            · have := hstarted j hj
              omega
          · show stn.trace ++ [Pairing.WsMsg.metaEnv (calls n).cameraId
                (some (stn.frameCount + 1))] = _
            rw [htr, List.flatten_append]
            rfl
          · intro b hb2
            rcases List.mem_append.1 hb2 with hb2 | hb2
            · exact hgood b hb2
            · right; left
              exact ⟨_, _, List.mem_singleton.1 hb2⟩
      · have hm0 : (calls n).metaSendOk = false := by
          simpa [Bool.not_eq_true] using hm
        have hstart : Pairing.startStep calls stn n
            = { stn with started := n :: stn.started,
                         frameCount := stn.frameCount + 1 } := by
          unfold Pairing.startStep
          rw [if_neg hn, if_neg (by simp [hc]), if_pos (by simp [hm0])]
        rw [hstart]
        have hres : Pairing.resumeStep calls
            { stn with started := n :: stn.started,
                       frameCount := stn.frameCount + 1 } n
            = { stn with started := n :: stn.started,
                         frameCount := stn.frameCount + 1 } := by
          unfold Pairing.resumeStep
          rw [if_neg hnp]
        rw [hres]
        refine ⟨hpend, ?_, bs, htr, hgood⟩
        intro j hj
        rcases List.mem_cons.1 hj with rfl | hj
        · omega
        · have := hstarted j hj
          omega
    · have hc0 : (calls n).connected = false := by
        simpa [Bool.not_eq_true] using hc
      have hstart : Pairing.startStep calls stn n
          = { stn with started := n :: stn.started } := by
        unfold Pairing.startStep
        rw [if_neg hn, if_pos (by simp [hc0])]
      rw [hstart]
      have hres : Pairing.resumeStep calls { stn with started := n :: stn.started } n
          = { stn with started := n :: stn.started } := by
        unfold Pairing.resumeStep
        rw [if_neg hnp]
      rw [hres]
      refine ⟨hpend, ?_, bs, htr, hgood⟩
      intro j hj
      rcases List.mem_cons.1 hj with rfl | hj
      · omega
      · have := hstarted j hj
        omega

/-- Claim C4 (amended): on the per-camera chunked-recorder channels every
binary chunk is immediately preceded by exactly one frame_info envelope (the
two sends share one synchronous handler); on the shared frame-upload socket
the same adjacency holds whenever sendFrame invocations do not overlap, but
the envelope and binary sends of one invocation are separated by await
points, so overlapping invocations can interleave and break adjacency; under
every interleaving the envelope frame numbers are strictly increasing — per
camera in particular — within a session, because the counter increment and
the envelope send share one synchronous region; chunk-path envelopes carry
no sequence number at all. -/
theorem metadata_then_binary_pairing :
    (∀ (cam : String) (events : List (Bool × Nat)),
      Pairing.binariesPaired (Pairing.chunkTrace cam events) = true) ∧
    (∀ (cam : String) (events : List (Bool × Nat)),
      ∀ x ∈ Pairing.envelopeNumbers (Pairing.chunkTrace cam events), x = none) ∧
    (∀ (calls : Nat → Pairing.FrameCall) (n : Nat),
      Pairing.binariesPaired
        (Pairing.runSched calls Pairing.initExec (Pairing.serializedSched n)).trace
          = true) ∧
    (∀ (calls : Nat → Pairing.FrameCall) (sched : List Pairing.SendEv),
      Pairing.allCarryNumbers (Pairing.envelopeNumbers
        (Pairing.runSched calls Pairing.initExec sched).trace) = true) ∧
    (∀ (cam : String) (calls : Nat → Pairing.FrameCall) (sched : List Pairing.SendEv),
      (Pairing.envelopeNatsFor cam
        (Pairing.runSched calls Pairing.initExec sched).trace).Pairwise (· < ·)) := by
  have hinit : Pairing.numbersInv Pairing.initExec :=
    ⟨rfl, List.Pairwise.nil, fun m hm => absurd hm (List.not_mem_nil m)⟩
  refine ⟨chunkTrace_paired, chunkTrace_numbers_none, ?_, ?_, ?_⟩
  · intro calls n
    obtain ⟨-, -, bs, htr, hgood⟩ := serialized_run_blocks calls n
    rw [htr]
    exact binariesPaired_flatten bs hgood
  · intro calls sched
    exact (runSched_numbersInv calls sched Pairing.initExec hinit).1
  · intro cam calls sched
    exact ((runSched_numbersInv calls sched Pairing.initExec hinit).2.1).sublist
      (envelopeNatsFor_sublist cam _)

/-- Counterexample for C4 as stated: a chunk-path frame_info envelope
carries no sequence number, and two overlapping frame-path invocations —
one interval tick serving two cameras on the single shared socket — send
envelope, envelope, binary, binary, so the second binary is immediately
preceded by another binary rather than by its envelope. -/
theorem pairing_breaks_on_code :
    Pairing.allCarryNumbers
      (Pairing.envelopeNumbers (Pairing.chunkTrace "cam1" [(true, 5)])) = false ∧
    (Pairing.runSched Pairing.twoTickCalls Pairing.initExec Pairing.overlappingSched).trace
      = [Pairing.WsMsg.metaEnv "cam1" (some 1), Pairing.WsMsg.metaEnv "cam2" (some 2),
         Pairing.WsMsg.binary "cam1" 0, Pairing.WsMsg.binary "cam2" 0] ∧
    Pairing.binariesPaired
      (Pairing.runSched Pairing.twoTickCalls Pairing.initExec
        Pairing.overlappingSched).trace = false := by
  refine ⟨rfl, by decide, rfl⟩

/- ----- C2: supersession of in-flight acquisition ----- -/

/-- Claim C2 (amended): when startCamera(slot, deviceB) is issued while
startCamera(slot, deviceA) is awaiting its hardware call, the new call marks
the prior attempt's abort controller cancelled; the abort handle is checked
before the hardware call and again after it returns, so a stream arriving
for the cancelled attempt is stopped rather than attached, and — whichever
hardware call resolves first — the slot ends bound to deviceB only. This
holds provided the superseded attempt does not enter the retry path: the
fixed retry delay is an await point that does not re-check the handle. -/
theorem supersession_without_retry (s0 : Supersession.SlotState)
    (a b : Supersession.Attempt) (aFirst : Bool)
    (hab : a.ctrl ≠ b.ctrl) (hb0 : b.ctrl ≠ s0.installedCtrl)
    (hbs : b.ctrl ∉ s0.abortedCtrls)
    (ha0 : a.ctrl ≠ s0.installedCtrl) (has : a.ctrl ∉ s0.abortedCtrls)
    (hstream : s0.stream = none)
    (hbstop : (b.ctrl, b.device) ∉ s0.stopped) :
    Supersession.checkBeforeGum (Supersession.entry s0 a) a = true ∧
    a.ctrl ∈ (Supersession.entry (Supersession.entry s0 a) b).abortedCtrls ∧
    (Supersession.runRace s0 a b aFirst).stream = some (b.ctrl, b.device) ∧
    (Supersession.runRace s0 a b aFirst).videoSrc = some (b.ctrl, b.device) ∧
    (a.ctrl, a.device) ∈ (Supersession.runRace s0 a b aFirst).stopped ∧
    (b.ctrl, b.device) ∉ (Supersession.runRace s0 a b aFirst).stopped := by
  have h1 : Supersession.entry s0 a
      = { installedCtrl := a.ctrl,
          abortedCtrls := s0.installedCtrl :: s0.abortedCtrls,
          stream := none, videoSrc := s0.videoSrc, stopped := s0.stopped,
          activeFlag := s0.activeFlag } := by
    simp only [Supersession.entry]
    rw [hstream]
  have h2 : Supersession.entry (Supersession.entry s0 a) b
      = { installedCtrl := b.ctrl,
          abortedCtrls := a.ctrl :: s0.installedCtrl :: s0.abortedCtrls,
          stream := none, videoSrc := s0.videoSrc, stopped := s0.stopped,
          activeFlag := s0.activeFlag } := by
    rw [h1]
    simp only [Supersession.entry]
  have hamem : a.ctrl ∈ (a.ctrl :: s0.installedCtrl :: s0.abortedCtrls) :=
    List.mem_cons_self _ _
  have hbmem : b.ctrl ∉ (a.ctrl :: s0.installedCtrl :: s0.abortedCtrls) := by
    intro hmem
    rcases List.mem_cons.1 hmem with h | hmem
    · exact hab h.symm
    · rcases List.mem_cons.1 hmem with h | hmem
      · exact hb0 h
      · exact hbs hmem
  have hcheck : Supersession.checkBeforeGum (Supersession.entry s0 a) a = true := by
    rw [h1]
    simp only [Supersession.checkBeforeGum, decide_eq_true_eq]
    intro hmem
    rcases List.mem_cons.1 hmem with h | hmem
    · exact ha0 h
    · exact has hmem
  have hpairne : ¬ ((b.ctrl, b.device) = (a.ctrl, a.device)) := by
    intro h
    exact hab (congrArg Prod.fst h).symm
  set s2 : Supersession.SlotState :=
    { installedCtrl := b.ctrl,
      abortedCtrls := a.ctrl :: s0.installedCtrl :: s0.abortedCtrls,
      stream := none, videoSrc := s0.videoSrc, stopped := s0.stopped,
      activeFlag := s0.activeFlag } with hs2
  have hra : Supersession.resumeAfterHw s2 a
      = (false, { s2 with stopped := (a.ctrl, a.device) :: s2.stopped }) := by
    simp only [Supersession.resumeAfterHw, hs2]
    rw [if_pos hamem]
  have hrb : Supersession.resumeAfterHw s2 b
      = (true, { s2 with videoSrc := some (b.ctrl, b.device),
                         stream := some (b.ctrl, b.device), activeFlag := true }) := by
    simp only [Supersession.resumeAfterHw, hs2]
    rw [if_neg hbmem]
  have hra2 : Supersession.resumeAfterHw
      { s2 with videoSrc := some (b.ctrl, b.device),
                stream := some (b.ctrl, b.device), activeFlag := true } a
      = (false, { s2 with videoSrc := some (b.ctrl, b.device),
                          stream := some (b.ctrl, b.device), activeFlag := true,
                          stopped := (a.ctrl, a.device) :: s2.stopped }) := by
    simp only [Supersession.resumeAfterHw, hs2]
    rw [if_pos hamem]
  have hrb2 : Supersession.resumeAfterHw
      { s2 with stopped := (a.ctrl, a.device) :: s2.stopped } b
      = (true, { s2 with stopped := (a.ctrl, a.device) :: s2.stopped,
                         videoSrc := some (b.ctrl, b.device),
                         stream := some (b.ctrl, b.device), activeFlag := true }) := by
    simp only [Supersession.resumeAfterHw, hs2]
    rw [if_neg hbmem]
  have hnotstop : (b.ctrl, b.device) ∉ ((a.ctrl, a.device) :: s2.stopped) := by
    intro hmem
    rcases List.mem_cons.1 hmem with h | hmem
    · exact hpairne h
    · exact hbstop hmem
  refine ⟨hcheck, by rw [h2]; exact hamem, ?_⟩
  have hrace : Supersession.runRace s0 a b aFirst
      = if aFirst then (Supersession.resumeAfterHw ((Supersession.resumeAfterHw s2 a).2) b).2
        else (Supersession.resumeAfterHw ((Supersession.resumeAfterHw s2 b).2) a).2 := by
    unfold Supersession.runRace
    simp only [h2]
  cases aFirst with
  | true =>
    rw [if_pos rfl] at hrace
    rw [hra] at hrace
    simp only at hrace
    rw [hrb2] at hrace
    rw [hrace]
    exact ⟨rfl, rfl, List.mem_cons_self _ _, hnotstop⟩
  | false =>
    rw [if_neg (by simp)] at hrace
    rw [hrb] at hrace
    simp only at hrace
    rw [hra2] at hrace
    rw [hrace]
    exact ⟨rfl, rfl, List.mem_cons_self _ _, hnotstop⟩

/-- Witness for C2 (amended) on a fresh slot: attempt 1 requests deviceA,
attempt 2 requests deviceB, and attempt 1's hardware call resolves first. -/
theorem supersession_without_retry_witness :
    Supersession.checkBeforeGum
        (Supersession.entry Supersession.initSlot ⟨1, "deviceA"⟩) ⟨1, "deviceA"⟩ = true ∧
    (1 : Nat) ∈ (Supersession.entry (Supersession.entry Supersession.initSlot ⟨1, "deviceA"⟩)
        ⟨2, "deviceB"⟩).abortedCtrls ∧
    (Supersession.runRace Supersession.initSlot ⟨1, "deviceA"⟩ ⟨2, "deviceB"⟩ true).stream
        = some (2, "deviceB") ∧
    (Supersession.runRace Supersession.initSlot ⟨1, "deviceA"⟩ ⟨2, "deviceB"⟩ true).videoSrc
        = some (2, "deviceB") ∧
    ((1 : Nat), "deviceA") ∈ (Supersession.runRace Supersession.initSlot
        ⟨1, "deviceA"⟩ ⟨2, "deviceB"⟩ true).stopped ∧
    ((2 : Nat), "deviceB") ∉ (Supersession.runRace Supersession.initSlot
        ⟨1, "deviceA"⟩ ⟨2, "deviceB"⟩ true).stopped :=
  supersession_without_retry Supersession.initSlot ⟨1, "deviceA"⟩ ⟨2, "deviceB"⟩ true
    (by decide) (by decide) (by simp [Supersession.initSlot])
    (by decide) (by simp [Supersession.initSlot]) rfl (by simp [Supersession.initSlot])

/-- Counterexample for C2 as stated: if attempt 1 (deviceA) fails with a
recoverable error and attempt 2 (deviceB) is issued during attempt 1's fixed
retry delay, the resumed retry re-runs the startCamera entry, aborting
attempt 2's controller; attempt 2's arriving stream is then stopped and the
retry attaches deviceA — the slot does not end bound to deviceB even though
startCamera(slot, deviceB) was the later call. -/
theorem supersession_retry_overrides :
    (Supersession.runRetryRace Supersession.initSlot
        ⟨1, "deviceA"⟩ ⟨2, "deviceB"⟩ ⟨3, "deviceA"⟩).stream = some (3, "deviceA") ∧
    ((2 : Nat), "deviceB") ∈ (Supersession.runRetryRace Supersession.initSlot
        ⟨1, "deviceA"⟩ ⟨2, "deviceB"⟩ ⟨3, "deviceA"⟩).stopped ∧
    ¬ ((Supersession.runRetryRace Supersession.initSlot
        ⟨1, "deviceA"⟩ ⟨2, "deviceB"⟩ ⟨3, "deviceA"⟩).stream = some (2, "deviceB")) := by
  refine ⟨rfl, ?_, by decide⟩
  simp [Supersession.runRetryRace, Supersession.entry, Supersession.resumeAfterHw,
        Supersession.initSlot]

/- ----- C1: device exclusivity ----- -/

/-- Every slot is enumerated. -/
theorem mem_camOrder (c : Registry.CamId) : c ∈ Registry.camOrder := by
  cases c <;> simp [Registry.camOrder]

/-- isDeviceInUse finds nothing exactly when no active slot holds the device. -/
theorem isDeviceInUse_eq_none_iff (s : Registry.CamState) (d : String) :
    Registry.isDeviceInUse s d = none ↔ ∀ c : Registry.CamId, ¬ Registry.holds s c d := by
  unfold Registry.isDeviceInUse
  rw [List.find?_eq_none]
  constructor
  · intro h c hc
    refine h c (mem_camOrder c) ?_
    simp only [Bool.and_eq_true, beq_iff_eq]
    exact ⟨hc.1, hc.2⟩
  · intro h c _ hp
    simp only [Bool.and_eq_true, beq_iff_eq] at hp
    exact h c ⟨hp.1, hp.2⟩

/-- The owner reported by isDeviceInUse is an active holder of the device. -/
theorem isDeviceInUse_holds (s : Registry.CamState) (d : String) (owner : Registry.CamId)
    (h : Registry.isDeviceInUse s d = some owner) : Registry.holds s owner d := by
  unfold Registry.isDeviceInUse at h
  have hp := List.find?_some h
  simp only [Bool.and_eq_true, beq_iff_eq] at hp
  exact ⟨hp.1, hp.2⟩

/-- Updating one slot's record does not change what other slots hold. -/
theorem holds_updateCamera_ne (s : Registry.CamState) (camId c : Registry.CamId)
    (f : Registry.Camera → Registry.Camera) (d : String) (hne : c ≠ camId) :
    Registry.holds (Registry.updateCamera s camId f) c d ↔ Registry.holds s c d := by
  unfold Registry.holds Registry.updateCamera
  simp [hne]

/-- acquire preserves exclusivity when no other slot holds the target. -/
theorem acquire_preserves_exclusive (s : Registry.CamState) (camId : Registry.CamId)
    (tgt : String) (hw : Registry.HwEnv) (hexc : Registry.exclusive s)
    (hno : ∀ c : Registry.CamId, c ≠ camId → ¬ Registry.holds s c tgt) :
    Registry.exclusive (Registry.acquire s camId tgt hw).2 := by
  unfold Registry.acquire
  by_cases hg : hw.gumOk
  · by_cases hv : hw.videoElement
    · simp only [hg, hv, Bool.not_true, Bool.false_eq_true, if_false]
      intro c1 c2 d h1 h2
      by_cases hc1 : c1 = camId
      · by_cases hc2 : c2 = camId
        · rw [hc1, hc2]
        · subst hc1
          have h1sel : some tgt = some d := by
            have hx := h1.2
            simpa [Registry.updateCamera] using hx
          have hd : d = tgt := (Option.some.inj h1sel).symm
          subst hd
          have h2s := (holds_updateCamera_ne _ _ _ _ _ hc2).1 h2
          exact absurd h2s (hno c2 hc2)
      · by_cases hc2 : c2 = camId
        · subst hc2
          have h2sel : some tgt = some d := by
            have hx := h2.2
            simpa [Registry.updateCamera] using hx
          have hd : d = tgt := (Option.some.inj h2sel).symm
          subst hd
          have h1s := (holds_updateCamera_ne _ _ _ _ _ hc1).1 h1
          exact absurd h1s (hno c1 hc1)
        · have t1 := (holds_updateCamera_ne
            (Registry.setStream (Registry.setStream s camId none) camId (some tgt))
            camId c1 _ d hc1).1 h1
          have t2 := (holds_updateCamera_ne
            (Registry.setStream (Registry.setStream s camId none) camId (some tgt))
            camId c2 _ d hc2).1 h2
          exact hexc c1 c2 d t1 t2
    · simp only [hg, hv, Bool.not_true, Bool.not_false, Bool.false_eq_true, if_false, if_true]
      exact hexc
  · simp only [Bool.not_eq_true] at hg
    simp only [hg, Bool.not_false, if_true]
    exact hexc

/-- Target resolution returns an exclusivity-preserving state that agrees
with the input state on what every other slot holds. -/
theorem resolveTarget_props (s : Registry.CamState) (camId : Registry.CamId)
    (deviceId : Option String) (hexc : Registry.exclusive s) (tgt : String)
    (s1 : Registry.CamState)
    (hres : Registry.resolveTarget s camId deviceId = some (tgt, s1)) :
    Registry.exclusive s1 ∧
    (∀ (c : Registry.CamId) (d : String), c ≠ camId →
      (Registry.holds s1 c d ↔ Registry.holds s c d)) := by
  unfold Registry.resolveTarget at hres
  cases hor : deviceId.orElse (fun _ => (s.cameras camId).selectedDeviceId) with
  | some d0 =>
    rw [hor] at hres
    simp only [Option.some.injEq, Prod.mk.injEq] at hres
    rw [← hres.2]
    exact ⟨hexc, fun c d _ => Iff.rfl⟩
  | none =>
    rw [hor] at hres
    have hsel : (s.cameras camId).selectedDeviceId = none := by
      cases hdev : deviceId with
      | some d1 => rw [hdev] at hor; exact absurd hor (by simp [Option.orElse])
      | none =>
        rw [hdev] at hor
        simpa [Option.orElse] using hor
    cases hfind : s.availableDevices.find? (fun d =>
        Registry.isDeviceInUse s d == none || Registry.isDeviceInUse s d == some camId) with
    | none =>
      rw [hfind] at hres
      exact absurd hres (by simp)
    | some d0 =>
      rw [hfind] at hres
      simp only [Option.some.injEq, Prod.mk.injEq] at hres
      obtain ⟨ht, hs⟩ := hres
      rw [← hs]
      have hpred := List.find?_some hfind
      simp only [Bool.or_eq_true, beq_iff_eq] at hpred
      have hnone : Registry.isDeviceInUse s d0 = none := by
        rcases hpred with h | h
        · exact h
        · exact absurd ((isDeviceInUse_holds s d0 camId h).2)
            (by rw [hsel]; exact fun hx => Option.noConfusion hx)
      have hnoall := (isDeviceInUse_eq_none_iff s d0).1 hnone
      constructor
      · intro c1 c2 d h1 h2
        by_cases hc1 : c1 = camId
        · by_cases hc2 : c2 = camId
          · rw [hc1, hc2]
          · exfalso
            have hx := h1.2
            rw [hc1] at hx
            have h1sel : some d0 = some d := by
              simpa [Registry.setSelectedDevice, Registry.updateCamera] using hx
            have hd : d = d0 := (Option.some.inj h1sel).symm
            have h2s := (holds_updateCamera_ne s camId c2 _ d hc2).1 h2
            rw [hd] at h2s
            exact hnoall c2 h2s
        · by_cases hc2 : c2 = camId
          · exfalso
            have hx := h2.2
            rw [hc2] at hx
            have h2sel : some d0 = some d := by
              simpa [Registry.setSelectedDevice, Registry.updateCamera] using hx
            have hd : d = d0 := (Option.some.inj h2sel).symm
            have h1s := (holds_updateCamera_ne s camId c1 _ d hc1).1 h1
            rw [hd] at h1s
            exact hnoall c1 h1s
          · exact hexc c1 c2 d ((holds_updateCamera_ne s camId c1 _ d hc1).1 h1)
              ((holds_updateCamera_ne s camId c2 _ d hc2).1 h2)
      · intro c d hne
        exact holds_updateCamera_ne s camId c _ d hne

/-- startCamera preserves device exclusivity. -/
theorem startCamera_preserves_exclusive (s : Registry.CamState) (camId : Registry.CamId)
    (deviceId : Option String) (hw : Registry.HwEnv) (hexc : Registry.exclusive s) :
    Registry.exclusive (Registry.startCamera s camId deviceId hw).2 := by
  unfold Registry.startCamera
  split
  · exact hexc
  · rename_i tgt s1 hres
    obtain ⟨hexc1, htrans⟩ := resolveTarget_props s camId deviceId hexc tgt s1 hres
    split
    · rename_i owner howner
      split
      · exact hexc1
      · rename_i hbne
        have ho : owner = camId := by
          by_contra hcon
          exact hbne (by simpa [bne_iff_ne] using hcon)
        subst ho
        have hOwner := isDeviceInUse_holds s1 tgt owner howner
        have hno : ∀ c : Registry.CamId, c ≠ owner → ¬ Registry.holds s1 c tgt :=
          fun c hne hc => hne (hexc1 c owner tgt hc hOwner)
        exact acquire_preserves_exclusive s1 owner tgt hw hexc1 hno
    · rename_i howner
      have hnoall := (isDeviceInUse_eq_none_iff s1 tgt).1 howner
      exact acquire_preserves_exclusive s1 camId tgt hw hexc1 (fun c _ => hnoall c)

/-- stopCamera preserves device exclusivity. -/
theorem stopCamera_preserves_exclusive (s : Registry.CamState) (camId : Registry.CamId)
    (hexc : Registry.exclusive s) :
    Registry.exclusive (Registry.stopCamera s camId) := by
  intro c1 c2 d h1 h2
  unfold Registry.stopCamera at h1 h2
  have hne1 : c1 ≠ camId := by
    intro h
    subst h
    have hx := h1.1
    simp [Registry.updateCamera, Registry.setStream] at hx
  have hne2 : c2 ≠ camId := by
    intro h
    subst h
    have hx := h2.1
    simp [Registry.updateCamera, Registry.setStream] at hx
  have t1 := (holds_updateCamera_ne (Registry.setStream s camId none) camId c1 _ d hne1).1 h1
  have t2 := (holds_updateCamera_ne (Registry.setStream s camId none) camId c2 _ d hne2).1 h2
  exact hexc c1 c2 d t1 t2

/-- Claim C1 (amended): a startCamera call requesting a device — explicitly
or through the slot's stored selection — that is currently held by a
different active slot returns failure with the whole state unchanged, and
both startCamera and stopCamera preserve the at-most-one-active-holder
invariant; however, the invariant is not maintained by every entry point:
the App's device-change handler overwrites the slot's selection before
startCamera rejects, so a reachable state can show two active slots holding
the same device id. -/
theorem device_exclusivity :
    (∀ (s : Registry.CamState) (camId owner : Registry.CamId) (d : String)
        (hw : Registry.HwEnv),
      Registry.isDeviceInUse s d = some owner → owner ≠ camId →
      Registry.startCamera s camId (some d) hw = (false, s)) ∧
    (∀ (s : Registry.CamState) (camId owner : Registry.CamId) (d : String)
        (hw : Registry.HwEnv),
      (s.cameras camId).selectedDeviceId = some d →
      Registry.isDeviceInUse s d = some owner → owner ≠ camId →
      Registry.startCamera s camId none hw = (false, s)) ∧
    (∀ (s : Registry.CamState) (camId : Registry.CamId) (deviceId : Option String)
        (hw : Registry.HwEnv),
      Registry.exclusive s → Registry.exclusive (Registry.startCamera s camId deviceId hw).2) ∧
    (∀ (s : Registry.CamState) (camId : Registry.CamId),
      Registry.exclusive s → Registry.exclusive (Registry.stopCamera s camId)) := by
  refine ⟨?_, ?_, startCamera_preserves_exclusive, stopCamera_preserves_exclusive⟩
  · intro s camId owner d hw huse hne
    have hres : Registry.resolveTarget s camId (some d) = some (d, s) := rfl
    have hbne : (owner != camId) = true := by
      simp only [bne_iff_ne, ne_eq]
      exact hne
    unfold Registry.startCamera
    rw [hres]
    show (match Registry.isDeviceInUse s d with
      | some owner => if (owner != camId) = true then (false, s)
        else Registry.acquire s camId d hw
      | none => Registry.acquire s camId d hw) = (false, s)
    rw [huse]
    simp [hbne]
  · intro s camId owner d hw hsel huse hne
    have hres : Registry.resolveTarget s camId none = some (d, s) := by
      unfold Registry.resolveTarget
      have h0 : (Option.orElse none fun _ => (s.cameras camId).selectedDeviceId)
          = (s.cameras camId).selectedDeviceId := rfl
      rw [h0, hsel]
    have hbne : (owner != camId) = true := by
      simp only [bne_iff_ne, ne_eq]
      exact hne
    unfold Registry.startCamera
    rw [hres]
    show (match Registry.isDeviceInUse s d with
      | some owner => if (owner != camId) = true then (false, s)
        else Registry.acquire s camId d hw
      | none => Registry.acquire s camId d hw) = (false, s)
    rw [huse]
    simp [hbne]

/-- Witness for C1 (amended): with cam1 active on D1 and cam2 active on D2,
a startCamera request binding cam2 to D1 fails and changes nothing, and the
initial state's exclusivity survives a startCamera call. -/
theorem device_exclusivity_witness :
    Registry.startCamera Registry.twoActiveState Registry.CamId.cam2 (some "D1")
        Registry.hwOk = (false, Registry.twoActiveState) ∧
    Registry.exclusive (Registry.startCamera (Registry.initState ["D1", "D2"])
        Registry.CamId.cam1 (some "D1") Registry.hwOk).2 := by
  constructor
  · exact device_exclusivity.1 Registry.twoActiveState Registry.CamId.cam2
      Registry.CamId.cam1 "D1" Registry.hwOk (by decide) (by decide)
  · refine device_exclusivity.2.2.1 (Registry.initState ["D1", "D2"])
      Registry.CamId.cam1 (some "D1") Registry.hwOk ?_
    intro c1 c2 d h1 h2
    exact absurd h1.1 (by simp [Registry.initState])

/-- Counterexample for C1 as stated: starting cam1 on D1 and cam2 on D2 and
then changing cam2's device to D1 through the App's device-change entry
point leaves cam2's selection overwritten while the restart is rejected, so
two distinct active slots hold device D1 — the exclusivity invariant does
not hold at every reachable state. -/
theorem device_exclusivity_violated :
    Registry.holds Registry.afterDeviceChange Registry.CamId.cam1 "D1" ∧
    Registry.holds Registry.afterDeviceChange Registry.CamId.cam2 "D1" ∧
    ¬ Registry.exclusive Registry.afterDeviceChange := by
  refine ⟨⟨by decide, by decide⟩, ⟨by decide, by decide⟩, ?_⟩
  intro h
  have heq := h Registry.CamId.cam1 Registry.CamId.cam2 "D1"
    ⟨by decide, by decide⟩ ⟨by decide, by decide⟩
  exact absurd heq (by decide)
